import Mathlib

/-!
Verification development for the perception-triage table tool.

The repository is a Streamlit application for browsing, labeling and diffing
tabular model-evaluation results.  This file gives a shallow embedding of its
data model and of the operations the specification talks about:

* a `DF` models a pandas DataFrame as a list of column names plus rows of
  cells (tables are assumed to carry the default RangeIndex, so positional
  `zip` models index-aligned column arithmetic);
* `combine_tables` embeds `combine_tables` of `src/download_table.py`;
* `SessionState` embeds the Streamlit session dictionary initialised by
  `DataManager.init_session_state` in `src/data_manager.py`, and the
  `DataManager` operations are state-passing functions on it;
* SQL execution is delegated to duckdb in the source; here it is an oracle
  parameter `sqlExec : DF → String → Except String DF`, where `Except.error`
  models a raised exception caught at the call site;
* Python exceptions (KeyError on a missing column, AttributeError on `None`)
  are modelled by `Option`/`Except` results.

Cell values are modelled by `Val` (strings and integers); Python `str(x)` is
`Val.toStr`, and the numeric metric subtraction of pandas is `valSub`, which
fails (raises) on non-numeric cells.
-/

/-- A cell value of a table: a string or an integer metric value. -/
inductive Val where
  | vstr (s : String)
  | vint (n : Int)
deriving DecidableEq

/-- Python `str(x)` on a cell value. -/
def Val.toStr : Val → String
  | .vstr s => s
  | .vint n => toString n

/-- Elementwise pandas subtraction of two cells; non-numeric operands raise
(`none`), as the `-` of two object Series would. -/
def valSub : Val → Val → Option Val
  | .vint a, .vint b => some (.vint (a - b))
  | _, _ => none

/-- A pandas DataFrame with default RangeIndex: a list of column names and a
list of rows, each row holding one cell per column. -/
structure DF where
  cols : List String
  rows : List (List Val)
deriving DecidableEq

/-- Well-formedness of a frame: every row has one cell per column. -/
def DF.WF (df : DF) : Prop := ∀ r ∈ df.rows, r.length = df.cols.length

instance (df : DF) : Decidable df.WF := by
  unfold DF.WF; infer_instance

/-- Read the cell of column `c` in a row (`row[c]`): walk the column names and
the cells in parallel; a missing column raises KeyError (`none`). -/
def lookupCell : List String → List Val → String → Option Val
  | c' :: cs, x :: xs, c => if c' = c then some x else lookupCell cs xs c
  | _, _, _ => none

/-- Write cell `v` into column `c` of a row: replace the cell of an existing
column, or append a fresh cell for a new column (pandas column assignment). -/
def setCells : List String → List Val → String → Val → List Val
  | c' :: cs, x :: xs, c, v => if c' = c then v :: xs else x :: setCells cs xs c v
  | _, row, _, v => row ++ [v]

/-- Column names after assigning to column `c`: unchanged if present, appended
at the end if new (pandas column assignment). -/
def setColNames (cols : List String) (c : String) : List String :=
  if c ∈ cols then cols else cols ++ [c]

/-- `df[c] = vals`: pandas whole-column assignment. -/
def DF.setCol (df : DF) (c : String) (vals : List Val) : DF :=
  { cols := setColNames df.cols c,
    rows := (df.rows.zip vals).map fun p => setCells df.cols p.1 c p.2 }

/-- Sequence a list of optional values; any failure propagates (a raised
exception aborts the whole column operation). -/
def optList {α : Type} : List (Option α) → Option (List α)
  | [] => some []
  | none :: _ => none
  | some v :: os => (optList os).map fun vs => v :: vs

/-- `df[c]`: pandas whole-column read; raises (`none`) if `c` is missing. -/
def DF.getCol (df : DF) (c : String) : Option (List Val) :=
  optList (df.rows.map fun r => lookupCell df.cols r c)

/-- `pd.concat([A, B], axis=1, keys=[0, 1])` followed by the rename
`df.columns = [f"{col[1]}_{col[0]}" for col in df.columns]` of
`src/download_table.py`: columns of A suffixed `_0`, columns of B suffixed
`_1`, rows paired positionally (equal-length tables with default index). -/
def concat_rename (A B : DF) : DF :=
  { cols := A.cols.map (fun c => c ++ "_0") ++ B.cols.map (fun c => c ++ "_1"),
    rows := (A.rows.zip B.rows).map fun p => p.1 ++ p.2 }

/-- `combine_tables` of `src/download_table.py` on two tables.  After the
side-by-side concatenation it assigns, in order: the comma-joined image-cache
column, the `<metric>_diff` column (table B's metric minus table A's), and
`frame_id` copied from `frame_id_0`.  A missing column or a non-numeric
metric raises (`none`). -/
def combine_tables (A B : DF) (cache_img_column_name metrics_for_diff : String) :
    Option DF :=
  let base := concat_rename A B
  match A.getCol cache_img_column_name, B.getCol cache_img_column_name with
  | some ca, some cb =>
    let d1 := base.setCol cache_img_column_name
      ((ca.zip cb).map fun p => Val.vstr (p.1.toStr ++ "," ++ p.2.toStr))
    match A.getCol metrics_for_diff, B.getCol metrics_for_diff with
    | some ma, some mb =>
      match optList ((mb.zip ma).map fun p => valSub p.1 p.2) with
      | some ds =>
        let d2 := d1.setCol (metrics_for_diff ++ "_diff") ds
        match d2.getCol "frame_id_0" with
        | some fid => some (d2.setCol "frame_id" fid)
        | none => none
      | none => none
    | _, _ => none
  | _, _ => none

/-- `FRAME_LABELS` of `src/config.py`: the fixed label taxonomy. -/
def FRAME_LABELS : List String :=
  ["Pred:Bias", "Pred:FN", "Pred:FP", "Pred:Curve", "Pred:Occ", "Pred:Branch",
   "Pred:Merge", "GT:Bias", "GT:FN", "GT:FP", "GT:Elev", "GT:Incomp", "Normal"]

/-- The persistent frame-label mapping `st.session_state.frame_labels`:
a Python dict from frame key to label, as an insertion-ordered
association list with unique keys. -/
abbrev LabelMap : Type := List (String × String)

/-- Python `d[k]` read on a dict (first — and only — binding of `k`). -/
def dictGet : LabelMap → String → Option String
  | [], _ => none
  | (k', v') :: rest, k => if k' = k then some v' else dictGet rest k

/-- Python `d[k] = v` on a dict: update the existing binding in place, else
append a new binding at the end (insertion order semantics). -/
def dictInsert : LabelMap → String → String → LabelMap
  | [], k, v => [(k, v)]
  | (k', v') :: rest, k, v =>
    if k' = k then (k, v) :: rest else (k', v') :: dictInsert rest k v

/-- The Streamlit session dictionary, with the keys installed by
`DataManager.init_session_state` (the opaque uploaded-file handle and the
widget-only keys are not modelled). -/
structure SessionState where
  df : Option DF
  current_df : Option DF
  display_types : List (String × String)
  labels : List (String × String)
  current_page : Nat
  rows_per_page : Nat
  page : String
  sort_column : Option String
  sort_ascending : Bool
  sql_query : Option String
  new_col_sql : Option String
  frame_labels : LabelMap
  model_versions : List String
deriving DecidableEq

/-- The session defaults of `DataManager.init_session_state`. -/
def init_session_state : SessionState :=
  { df := none, current_df := none, display_types := [], labels := [],
    current_page := 1, rows_per_page := 10,
    page := "Data Upload & Configuration", sort_column := none,
    sort_ascending := true, sql_query := none, new_col_sql := none,
    frame_labels := [], model_versions := [] }

namespace DataManager

/-- `DataManager.get_frame_uuid` of `src/data_manager.py`:
`"_".join(st.session_state.model_versions + [str(row["frame_id"])])`.
A row without a `frame_id` cell raises KeyError (`none`). -/
def get_frame_uuid (s : SessionState) (cols : List String) (row : List Val) :
    Option String :=
  (lookupCell cols row "frame_id").map fun v =>
    String.intercalate "_" (s.model_versions ++ [v.toStr])

/-- `DataManager.init_frame_labels`: sets the whole `label` column to
`FRAME_LABELS[0]`, then overwrites each row's label with the historical label
of its frame key when present in `st.session_state.frame_labels`. -/
def init_frame_labels (s : SessionState) : Option SessionState :=
  match s.df with
  | none => none
  | some df =>
    let df1 := df.setCol "label" (df.rows.map fun _ => Val.vstr FRAME_LABELS.headI)
    match optList (df1.rows.map fun r =>
      match get_frame_uuid s df1.cols r with
      | none => none
      | some uuid =>
        match dictGet s.frame_labels uuid with
        | some l => some (setCells df1.cols r "label" (Val.vstr l))
        | none => some r) with
    | none => none
    | some rows2 => some { s with df := some { cols := df1.cols, rows := rows2 } }

/-- `DataManager.copy_original_to_current`: `current_df = df.copy()` and reset
pagination; `df.copy()` on `None` raises AttributeError (`none`). -/
def copy_original_to_current (s : SessionState) : Option SessionState :=
  match s.df with
  | none => none
  | some d => some { s with current_df := some d, current_page := 1 }

/-- `DataManager.apply_sql_query` with the duckdb engine abstracted as the
oracle `sqlExec`.  Inside the `try` it first resets `current_df` to a copy of
`df`, then runs the query against that copy; on success it installs the
result, on failure it calls `st.error` (the returned message) — leaving the
already-reset `current_df` in place. -/
def apply_sql_query (sqlExec : DF → String → Except String DF) (query : String)
    (s : SessionState) : SessionState × Option String :=
  match copy_original_to_current s with
  | none => (s, some "SQL Error: 'NoneType' object has no attribute 'copy'")
  | some s1 =>
    match s1.current_df with
    | none => (s1, some "SQL Error: invalid table registration")
    | some d =>
      match sqlExec d query with
      | .ok result => ({ s1 with current_df := some result, current_page := 1 }, none)
      | .error e => (s1, some ("SQL Error: " ++ e))

/-- `DataManager.add_computed_column` with the duckdb engine abstracted as the
oracle `sqlExec`: runs the query against `current_df`; on success installs the
result and resets pagination, on failure calls `st.error` and leaves the
session untouched. -/
def add_computed_column (sqlExec : DF → String → Except String DF) (query : String)
    (s : SessionState) : SessionState × Option String :=
  match s.current_df with
  | none => (s, some "Column Error: invalid table registration")
  | some d =>
    match sqlExec d query with
    | .ok new_df => ({ s with current_df := some new_df, current_page := 1 }, none)
    | .error e => (s, some ("Column Error: " ++ e))

/-- The label-CSV write of `DataManager.save_frame_labels`:
`pd.DataFrame(list(frame_labels.items()), columns=["uuid", "label"])` written
to `labels.csv` — modelled as the `uuid` column and the `label` column of that
file (pandas round-trips string cells through CSV). -/
def save_frame_labels (m : LabelMap) : List String × List String :=
  (m.map Prod.fst, m.map Prod.snd)

/-- The label-CSV read of `DataManager.handle_file_upload`:
`dict(zip(label_df["uuid"], label_df["label"]))`. -/
def load_frame_labels (uuids labels : List String) : LabelMap :=
  (uuids.zip labels).foldl (fun d p => dictInsert d p.1 p.2) []

/-- `DataManager.add_img_dst_paths`: for each model version `i` it assigns
`img_uuid_i = model_version + "_" + df["frame_id"].astype(str)` and
`img_dst_i = dst_folder / (df["img_uuid_i"] + ".png")`.  A missing `frame_id`
column raises (`none`). -/
def add_img_dst_paths_aux (dst_folder : String) :
    Nat → List String → DF → Option DF
  | _, [], df => some df
  | i, model_version :: rest, df =>
    match df.getCol "frame_id" with
    | none => none
    | some fids =>
      let uuids := fids.map fun v => Val.vstr (model_version ++ "_" ++ v.toStr)
      let df1 := df.setCol ("img_uuid_" ++ toString i) uuids
      match df1.getCol ("img_uuid_" ++ toString i) with
      | none => none
      | some us =>
        let dsts := us.map fun v => Val.vstr (dst_folder ++ "/" ++ v.toStr ++ ".png")
        add_img_dst_paths_aux dst_folder (i + 1) rest
          (df1.setCol ("img_dst_" ++ toString i) dsts)

/-- `DataManager.add_img_dst_paths` iterating
`enumerate(st.session_state.model_versions)`. -/
def add_img_dst_paths (model_versions : List String) (dst_folder : String)
    (df : DF) : Option DF :=
  add_img_dst_paths_aux dst_folder 0 model_versions df

end DataManager

namespace UIComponents

/-- The frame key computed by `UIComponents.handle_label_edit` when a label is
changed: it calls `DataManager.get_frame_uuid(row)`. -/
def label_edit_uuid (s : SessionState) (cols : List String) (row : List Val) :
    Option String :=
  DataManager.get_frame_uuid s cols row

/-- The `frame_labels` update performed by `UIComponents.handle_label_edit`:
if the selector value differs from the row's current label, the map gains the
binding `frame_labels[frame_uuid] = new_label` (and the CSV is rewritten). -/
def handle_label_edit_labels (m : LabelMap) (uuid current_value new_label : String) :
    LabelMap :=
  if new_label ≠ current_value then dictInsert m uuid new_label else m

end UIComponents

namespace TableLabeler

/-- `get_frame_id` of `src/table_labeler.py`: try `frame_id`, then
`frame_id_0` (single table and diff table); no frame id raises (`none`). -/
def get_frame_id (cols : List String) (row : List Val) : Option String :=
  match lookupCell cols row "frame_id" with
  | some v => some v.toStr
  | none =>
    match lookupCell cols row "frame_id_0" with
    | some v => some v.toStr
    | none => none

/-- `get_frame_uuid` of `src/table_labeler.py`:
`"_".join(st.session_state.model_versions + [frame_id])`. -/
def get_frame_uuid (s : SessionState) (cols : List String) (row : List Val) :
    Option String :=
  (get_frame_id cols row).map fun fid =>
    String.intercalate "_" (s.model_versions ++ [fid])

end TableLabeler

/-- The comma join of the two per-model image-cache paths, as written by
`combine_tables` (`df_list[0][c].astype(str) + "," + df_list[1][c].astype(str)`). -/
def join_img_cache (p0 p1 : String) : String := p0 ++ "," ++ p1

/-- Python `str.split(",")` on the character list of a string: the semantics
of the per-row `row["img_cache"].split(",")` of
`DataManager.split_img_paths` (and of `split_img_paths` in
`src/table_labeler.py`). -/
def splitCommaList : List Char → List (List Char)
  | [] => [[]]
  | c :: cs =>
    if c = ',' then [] :: splitCommaList cs
    else
      match splitCommaList cs with
      | [] => [[c]]
      | r :: rs => (c :: r) :: rs

/-- Python `s.split(",")` at the string level. -/
def split_on_comma (s : String) : List String :=
  (splitCommaList s.data).map String.mk

/-- Every label stored in the persistent map is one of the 13 fixed labels. -/
def LabelMapOK (m : LabelMap) : Prop := ∀ p ∈ m, p.2 ∈ FRAME_LABELS

instance (m : LabelMap) : Decidable (LabelMapOK m) := by
  unfold LabelMapOK; infer_instance

/-- Example table A (one model run): a frame, its cached image, one metric. -/
def exTableA : DF :=
  { cols := ["frame_id", "img_cache", "mean_iou"],
    rows := [[Val.vstr "f1", Val.vstr "pa.png", Val.vint 3],
             [Val.vstr "f2", Val.vstr "qa.png", Val.vint 5]] }

/-- Example table B (second model run), same frames. -/
def exTableB : DF :=
  { cols := ["frame_id", "img_cache", "mean_iou"],
    rows := [[Val.vstr "f1", Val.vstr "pb.png", Val.vint 10],
             [Val.vstr "f2", Val.vstr "qb.png", Val.vint 4]] }

/-- A session state in mid-use: an uploaded table, a transformed working
table, one historical label, and two model versions. -/
def exState : SessionState :=
  { init_session_state with
      df := some exTableA,
      current_df := some { cols := ["frame_id"], rows := [[Val.vstr "f1"]] },
      current_page := 5,
      frame_labels := [("a_b_f1", "GT:FN")],
      model_versions := ["a", "b"] }

/-- A SQL oracle that always fails, modelling a malformed query or a missing
column (duckdb raises, the call site catches). -/
def exFailingExec : DF → String → Except String DF :=
  fun _ _ => .error "Binder Error: column not found"

/-- The diff table produced by `combine_tables exTableA exTableB "img_cache"
"mean_iou"`, written out for use in concrete checks. -/
def exCombined : DF :=
  { cols := ["frame_id_0", "img_cache_0", "mean_iou_0",
             "frame_id_1", "img_cache_1", "mean_iou_1",
             "img_cache", "mean_iou_diff", "frame_id"],
    rows := [[Val.vstr "f1", Val.vstr "pa.png", Val.vint 3,
              Val.vstr "f1", Val.vstr "pb.png", Val.vint 10,
              Val.vstr "pa.png,pb.png", Val.vint 7, Val.vstr "f1"],
             [Val.vstr "f2", Val.vstr "qa.png", Val.vint 5,
              Val.vstr "f2", Val.vstr "qb.png", Val.vint 4,
              Val.vstr "qa.png,qb.png", Val.vint (-1), Val.vstr "f2"]] }

/-! ### Supporting lemmas about the embedding primitives -/

lemma optList_length {α : Type} :
    ∀ {l : List (Option α)} {l' : List α}, optList l = some l' → l'.length = l.length := by
  intro l
  induction l with
  | nil => intro l' h; simp [optList] at h; subst h; rfl
  | cons o os ih =>
    intro l' h
    cases o with
    | none => simp [optList] at h
    | some v =>
      cases hos : optList os with
      | none => simp [optList, hos] at h
      | some vs =>
        simp [optList, hos] at h
        subst h
        simp [ih hos]

lemma optList_map_some {α β : Type} (f : α → Option β) (g : α → β) :
    ∀ {l : List α}, (∀ x ∈ l, f x = some (g x)) → optList (l.map f) = some (l.map g) := by
  intro l
  induction l with
  | nil => intro _; rfl
  | cons x xs ih =>
    intro h
    have hx : f x = some (g x) := h x (by simp)
    have hxs : optList (xs.map f) = some (xs.map g) := ih fun y hy => h y (by simp [hy])
    simp [optList, hx, hxs]

lemma optList_mem {α β : Type} (f : α → Option β) :
    ∀ {l : List α} {l' : List β}, optList (l.map f) = some l' →
      ∀ y ∈ l', ∃ x ∈ l, f x = some y := by
  intro l
  induction l with
  | nil => intro l' h y hy; simp [optList] at h; subst h; simp at hy
  | cons x xs ih =>
    intro l' h y hy
    cases hx : f x with
    | none => simp [optList, hx] at h
    | some v =>
      cases hxs : optList (xs.map f) with
      | none => simp [optList, hx, hxs] at h
      | some vs =>
        simp [optList, hx, hxs] at h
        subst h
        rcases List.mem_cons.mp hy with hy' | hy'
        · exact ⟨x, by simp, by rw [hx, hy']⟩
        · rcases ih hxs y hy' with ⟨x', hx', hfx'⟩
          exact ⟨x', by simp [hx'], hfx'⟩

lemma lookupCell_nil_row (cs : List String) (c : String) :
    lookupCell cs [] c = none := by
  cases cs <;> rfl

lemma lookupCell_not_mem :
    ∀ (cs : List String) (r : List Val) (c : String), c ∉ cs → lookupCell cs r c = none := by
  intro cs
  induction cs with
  | nil => intro r c _; cases r <;> rfl
  | cons c' cs ih =>
    intro r c hc
    cases r with
    | nil => rfl
    | cons x xs =>
      have h1 : c' ≠ c := fun h => hc (by simp [h])
      have h2 : c ∉ cs := fun h => hc (by simp [h])
      simp [lookupCell, h1, ih xs c h2]

lemma lookupCell_append_left :
    ∀ (cs1 : List String) (r1 : List Val) (cs2 : List String) (r2 : List Val) (c : String),
      r1.length = cs1.length → c ∈ cs1 →
      lookupCell (cs1 ++ cs2) (r1 ++ r2) c = lookupCell cs1 r1 c := by
  intro cs1
  induction cs1 with
  | nil => intro r1 _ _ c _ hc; simp at hc
  | cons c' cs1 ih =>
    intro r1 cs2 r2 c hlen hc
    cases r1 with
    | nil => simp at hlen
    | cons x xs =>
      by_cases hcc : c' = c
      · simp [lookupCell, hcc]
      · have hc' : c ∈ cs1 := by
          rcases List.mem_cons.mp hc with h | h
          · exact absurd h.symm hcc
          · exact h
        have hlen' : xs.length = cs1.length := by simpa using hlen
        simp [lookupCell, hcc, ih xs cs2 r2 c hlen' hc']

lemma lookupCell_append_right :
    ∀ (cs1 : List String) (r1 : List Val) (cs2 : List String) (r2 : List Val) (c : String),
      r1.length = cs1.length → c ∉ cs1 →
      lookupCell (cs1 ++ cs2) (r1 ++ r2) c = lookupCell cs2 r2 c := by
  intro cs1
  induction cs1 with
  | nil => intro r1 _ _ c hlen _; cases r1 with
      | nil => rfl
      | cons x xs => simp at hlen
  | cons c' cs1 ih =>
    intro r1 cs2 r2 c hlen hc
    cases r1 with
    | nil => simp at hlen
    | cons x xs =>
      have h1 : c' ≠ c := fun h => hc (by simp [h])
      have h2 : c ∉ cs1 := fun h => hc (by simp [h])
      have hlen' : xs.length = cs1.length := by simpa using hlen
      simp [lookupCell, h1, ih xs cs2 r2 c hlen' h2]

lemma string_append_right_cancel {a b s : String} (h : a ++ s = b ++ s) : a = b := by
  have hd : a.data ++ s.data = b.data ++ s.data := by
    simpa [String.data_append] using congrArg String.data h
  have hl : a.data.length = b.data.length := by
    have h1 : a.data.length + s.data.length = b.data.length + s.data.length := by
      simpa using congrArg List.length hd
    omega
  have hab := (List.append_inj hd hl).1
  cases a; cases b; simp_all

lemma lookupCell_map_suffix (sfx : String) :
    ∀ (cs : List String) (r : List Val) (c : String),
      lookupCell (cs.map fun a => a ++ sfx) r (c ++ sfx) = lookupCell cs r c := by
  intro cs
  induction cs with
  | nil => intro r c; cases r <;> rfl
  | cons c' cs ih =>
    intro r c
    cases r with
    | nil => rfl
    | cons x xs =>
      by_cases hcc : c' = c
      · simp [lookupCell, hcc]
      · have hne : c' ++ sfx ≠ c ++ sfx := fun h => hcc (string_append_right_cancel h)
        simp [lookupCell, hcc, hne, ih xs c]

lemma getLast?_append_ne_nil (l1 : List Char) :
    ∀ l2 : List Char, l2 ≠ [] → (l1 ++ l2).getLast? = l2.getLast? := by
  induction l1 with
  | nil => intro l2 _; rfl
  | cons x l1 ih =>
    intro l2 h2
    have hne : l1 ++ l2 ≠ [] := by
      intro hE
      exact h2 (List.append_eq_nil.mp hE).2
    have hstep : ((x :: l1) ++ l2).getLast? = (l1 ++ l2).getLast? := by
      cases hc : l1 ++ l2 with
      | nil => exact absurd hc hne
      | cons y ys => simp [hc, List.getLast?_cons_cons]
    rw [hstep, ih l2 h2]

lemma suffix0_ne_suffix1 (a b : String) : a ++ "_0" ≠ b ++ "_1" := by
  intro h
  have hd := congrArg (fun s => s.data.getLast?) h
  simp only [String.data_append] at hd
  rw [getLast?_append_ne_nil _ _ (by decide), getLast?_append_ne_nil _ _ (by decide)] at hd
  exact absurd hd (by decide)

lemma diff_suffix_ne_frame_id (m : String) : m ++ "_diff" ≠ "frame_id" := by
  intro h
  have hd := congrArg (fun s => s.data.getLast?) h
  simp only [String.data_append] at hd
  rw [getLast?_append_ne_nil _ _ (by decide)] at hd
  exact absurd hd (by decide)

lemma setCells_not_mem :
    ∀ (cs : List String) (r : List Val) (c : String) (v : Val),
      c ∉ cs → r.length = cs.length → setCells cs r c v = r ++ [v] := by
  intro cs
  induction cs with
  | nil => intro r c v _ hlen; cases r with
      | nil => rfl
      | cons x xs => simp at hlen
  | cons c' cs ih =>
    intro r c v hc hlen
    cases r with
    | nil => simp at hlen
    | cons x xs =>
      have h1 : c' ≠ c := fun h => hc (by simp [h])
      have h2 : c ∉ cs := fun h => hc (by simp [h])
      have hlen' : xs.length = cs.length := by simpa using hlen
      simp [setCells, h1, ih xs c v h2 hlen']

lemma setCells_length_mem :
    ∀ (cs : List String) (r : List Val) (c : String) (v : Val),
      c ∈ cs → r.length = cs.length → (setCells cs r c v).length = r.length := by
  intro cs
  induction cs with
  | nil => intro r c v hc _; simp at hc
  | cons c' cs ih =>
    intro r c v hc hlen
    cases r with
    | nil => simp at hlen
    | cons x xs =>
      have hlen' : xs.length = cs.length := by simpa using hlen
      by_cases hcc : c' = c
      · simp [setCells, hcc]
      · have hc' : c ∈ cs := by
          rcases List.mem_cons.mp hc with h | h
          · exact absurd h.symm hcc
          · exact h
        simp [setCells, hcc, ih xs c v hc' hlen']

lemma lookupCell_setCells_mem :
    ∀ (cs : List String) (r : List Val) (c : String) (v : Val),
      c ∈ cs → r.length = cs.length →
      lookupCell cs (setCells cs r c v) c = some v := by
  intro cs
  induction cs with
  | nil => intro r c v hc _; simp at hc
  | cons c' cs ih =>
    intro r c v hc hlen
    cases r with
    | nil => simp at hlen
    | cons x xs =>
      have hlen' : xs.length = cs.length := by simpa using hlen
      by_cases hcc : c' = c
      · simp [setCells, lookupCell, hcc]
      · have hc' : c ∈ cs := by
          rcases List.mem_cons.mp hc with h | h
          · exact absurd h.symm hcc
          · exact h
        simp [setCells, lookupCell, hcc, ih xs c v hc' hlen']

lemma lookupCell_setCells_self (cs : List String) (r : List Val) (c : String) (v : Val)
    (hlen : r.length = cs.length) :
    lookupCell (setColNames cs c) (setCells cs r c v) c = some v := by
  by_cases hc : c ∈ cs
  · rw [setColNames, if_pos hc]
    exact lookupCell_setCells_mem cs r c v hc hlen
  · rw [setColNames, if_neg hc, setCells_not_mem cs r c v hc hlen,
      lookupCell_append_right cs r [c] [v] c hlen hc]
    simp [lookupCell]

lemma lookupCell_setCells_mem_ne :
    ∀ (cs : List String) (r : List Val) (c c' : String) (v : Val),
      c' ≠ c → r.length = cs.length →
      lookupCell cs (setCells cs r c v) c' = lookupCell cs r c' := by
  intro cs
  induction cs with
  | nil => intro r c c' v _ hlen; cases r with
      | nil => rfl
      | cons x xs => simp at hlen
  | cons c'' cs ih =>
    intro r c c' v hne hlen
    cases r with
    | nil => simp at hlen
    | cons x xs =>
      have hlen' : xs.length = cs.length := by simpa using hlen
      by_cases hcc : c'' = c
      · have hne' : c ≠ c' := fun h => hne h.symm
        simp [setCells, lookupCell, hcc, hne']
      · by_cases hcc' : c'' = c'
        · simp [setCells, lookupCell, hcc, hcc', hne]
        · simp [setCells, lookupCell, hcc, hcc', ih xs c c' v hne hlen']

lemma lookupCell_setCells_ne (cs : List String) (r : List Val) (c c' : String) (v : Val)
    (hne : c' ≠ c) (hlen : r.length = cs.length) :
    lookupCell (setColNames cs c) (setCells cs r c v) c' = lookupCell cs r c' := by
  by_cases hc : c ∈ cs
  · rw [setColNames, if_pos hc]
    exact lookupCell_setCells_mem_ne cs r c c' v hne hlen
  · rw [setColNames, if_neg hc, setCells_not_mem cs r c v hc hlen]
    by_cases hc' : c' ∈ cs
    · exact lookupCell_append_left cs r [c] [v] c' hlen hc'
    · rw [lookupCell_append_right cs r [c] [v] c' hlen hc',
        lookupCell_not_mem cs r c' hc']
      have hcc' : ¬c = c' := fun h => hne h.symm
      simp [lookupCell, hcc']

lemma setColNames_length_not_mem (cols : List String) (c : String) (hc : c ∉ cols) :
    (setColNames cols c).length = cols.length + 1 := by
  simp [setColNames, hc]

lemma DF.setCol_WF {df : DF} (hwf : df.WF) (c : String) (vals : List Val) :
    (df.setCol c vals).WF := by
  intro r hr
  simp only [DF.setCol, List.mem_map] at hr
  rcases hr with ⟨p, hp, hset⟩
  have hp1 : p.1 ∈ df.rows := (List.of_mem_zip hp).1
  have hlen : p.1.length = df.cols.length := hwf p.1 hp1
  subst hset
  by_cases hc : c ∈ df.cols
  · rw [setCells_length_mem df.cols p.1 c p.2 hc hlen, DF.setCol, setColNames, if_pos hc]
    exact hlen
  · rw [setCells_not_mem df.cols p.1 c p.2 hc hlen]
    simp [DF.setCol, setColNames, hc, hlen]

lemma DF.setCol_rows_length {df : DF} {vals : List Val}
    (hlen : vals.length = df.rows.length) (c : String) :
    (df.setCol c vals).rows.length = df.rows.length := by
  simp [DF.setCol, List.length_zip, hlen]

lemma DF.getCol_length {df : DF} {c : String} {l : List Val}
    (h : df.getCol c = some l) : l.length = df.rows.length := by
  have := optList_length h
  simpa using this

lemma DF.getCol_setCol_self {df : DF} (hwf : df.WF) {vals : List Val}
    (hlen : vals.length = df.rows.length) (c : String) :
    (df.setCol c vals).getCol c = some vals := by
  have hrows : (df.setCol c vals).rows
      = (df.rows.zip vals).map fun p => setCells df.cols p.1 c p.2 := rfl
  have hcols : (df.setCol c vals).cols = setColNames df.cols c := rfl
  rw [DF.getCol, hrows, hcols, List.map_map]
  have hpt : ∀ p ∈ df.rows.zip vals,
      lookupCell (setColNames df.cols c) (setCells df.cols p.1 c p.2) c
        = some (Prod.snd p) := by
    intro p hp
    exact lookupCell_setCells_self df.cols p.1 c p.2 (hwf p.1 (List.of_mem_zip hp).1)
  have := optList_map_some
    (fun p => lookupCell (setColNames df.cols c) (setCells df.cols p.1 c p.2) c)
    Prod.snd hpt
  rw [Function.comp_def, this, List.map_snd_zip df.rows vals (le_of_eq hlen)]

lemma DF.getCol_setCol_ne {df : DF} (hwf : df.WF) {vals : List Val}
    (hlen : vals.length = df.rows.length) {c c' : String} (hne : c' ≠ c) :
    (df.setCol c vals).getCol c' = df.getCol c' := by
  have hrows : (df.setCol c vals).rows
      = (df.rows.zip vals).map fun p => setCells df.cols p.1 c p.2 := rfl
  have hcols : (df.setCol c vals).cols = setColNames df.cols c := rfl
  rw [DF.getCol, hrows, hcols, List.map_map]
  have hpt : (df.rows.zip vals).map
      (fun p => lookupCell (setColNames df.cols c) (setCells df.cols p.1 c p.2) c')
      = (df.rows.zip vals).map fun p => lookupCell df.cols p.1 c' := by
    apply List.map_congr_left
    intro p hp
    exact lookupCell_setCells_ne df.cols p.1 c c' p.2 hne (hwf p.1 (List.of_mem_zip hp).1)
  rw [Function.comp_def, hpt]
  have hfst : (df.rows.zip vals).map (fun p => lookupCell df.cols p.1 c')
      = ((df.rows.zip vals).map Prod.fst).map fun r => lookupCell df.cols r c' := by
    rw [List.map_map]; rfl
  rw [hfst, List.map_fst_zip df.rows vals (le_of_eq hlen.symm)]
  rfl

lemma concat_rename_WF {A B : DF} (hwfA : A.WF) (hwfB : B.WF) :
    (concat_rename A B).WF := by
  intro r hr
  simp only [concat_rename, List.mem_map] at hr
  rcases hr with ⟨p, hp, hcat⟩
  subst hcat
  have h1 : p.1.length = A.cols.length := hwfA p.1 (List.of_mem_zip hp).1
  have h2 : p.2.length = B.cols.length := hwfB p.2 (List.of_mem_zip hp).2
  simp [concat_rename, h1, h2]

lemma concat_rename_rows_length {A B : DF} (hlen : A.rows.length = B.rows.length) :
    (concat_rename A B).rows.length = A.rows.length := by
  simp [concat_rename, List.length_zip, hlen]

lemma getCol_concat_left {A B : DF} (hwfA : A.WF) (hwfB : B.WF)
    (hlen : A.rows.length = B.rows.length) {c : String} (hc : c ∈ A.cols) :
    (concat_rename A B).getCol (c ++ "_0") = A.getCol c := by
  rw [DF.getCol]
  have hrows : (concat_rename A B).rows = (A.rows.zip B.rows).map fun p => p.1 ++ p.2 := rfl
  rw [hrows, List.map_map]
  have hpt : (A.rows.zip B.rows).map
      (fun p => lookupCell (concat_rename A B).cols (p.1 ++ p.2) (c ++ "_0"))
      = (A.rows.zip B.rows).map fun p => lookupCell A.cols p.1 c := by
    apply List.map_congr_left
    intro p hp
    have h1 : p.1.length = (A.cols.map fun a => a ++ "_0").length := by
      simpa using hwfA p.1 (List.of_mem_zip hp).1
    have hmem : c ++ "_0" ∈ A.cols.map fun a => a ++ "_0" :=
      List.mem_map_of_mem _ hc
    have hcols : (concat_rename A B).cols
        = (A.cols.map fun a => a ++ "_0") ++ B.cols.map fun a => a ++ "_1" := rfl
    rw [hcols, lookupCell_append_left _ p.1 _ p.2 (c ++ "_0") h1 hmem,
      lookupCell_map_suffix "_0" A.cols p.1 c]
  rw [Function.comp_def, hpt]
  have hfst : (A.rows.zip B.rows).map (fun p => lookupCell A.cols p.1 c)
      = ((A.rows.zip B.rows).map Prod.fst).map fun r => lookupCell A.cols r c := by
    rw [List.map_map]; rfl
  rw [hfst, List.map_fst_zip A.rows B.rows (le_of_eq hlen)]
  rfl

lemma getCol_concat_right {A B : DF} (hwfA : A.WF) (hwfB : B.WF)
    (hlen : A.rows.length = B.rows.length) {c : String} (hc : c ∈ B.cols) :
    (concat_rename A B).getCol (c ++ "_1") = B.getCol c := by
  rw [DF.getCol]
  have hrows : (concat_rename A B).rows = (A.rows.zip B.rows).map fun p => p.1 ++ p.2 := rfl
  rw [hrows, List.map_map]
  have hpt : (A.rows.zip B.rows).map
      (fun p => lookupCell (concat_rename A B).cols (p.1 ++ p.2) (c ++ "_1"))
      = (A.rows.zip B.rows).map fun p => lookupCell B.cols p.2 c := by
    apply List.map_congr_left
    intro p hp
    have h1 : p.1.length = (A.cols.map fun a => a ++ "_0").length := by
      simpa using hwfA p.1 (List.of_mem_zip hp).1
    have hnmem : c ++ "_1" ∉ A.cols.map fun a => a ++ "_0" := by
      intro hmem
      rcases List.mem_map.mp hmem with ⟨a, _, ha⟩
      exact suffix0_ne_suffix1 a c ha
    have hcols : (concat_rename A B).cols
        = (A.cols.map fun a => a ++ "_0") ++ B.cols.map fun a => a ++ "_1" := rfl
    rw [hcols, lookupCell_append_right _ p.1 _ p.2 (c ++ "_1") h1 hnmem,
      lookupCell_map_suffix "_1" B.cols p.2 c]
  rw [Function.comp_def, hpt]
  have hsnd : (A.rows.zip B.rows).map (fun p => lookupCell B.cols p.2 c)
      = ((A.rows.zip B.rows).map Prod.snd).map fun r => lookupCell B.cols r c := by
    rw [List.map_map]; rfl
  rw [hsnd, List.map_snd_zip A.rows B.rows (le_of_eq hlen.symm)]
  rfl

lemma dictGet_mem : ∀ (m : LabelMap) (k v : String), dictGet m k = some v → (k, v) ∈ m := by
  intro m
  induction m with
  | nil => intro k v h; simp [dictGet] at h
  | cons p rest ih =>
    intro k v h
    by_cases hk : p.1 = k
    · rw [show p = (p.1, p.2) from rfl, dictGet, if_pos hk] at h
      simp only [Option.some.injEq] at h
      subst h; subst hk
      simp
    · rw [show p = (p.1, p.2) from rfl, dictGet, if_neg hk] at h
      simp [ih k v h]

lemma dictInsert_subset :
    ∀ (m : LabelMap) (k v : String) (p : String × String),
      p ∈ dictInsert m k v → p = (k, v) ∨ p ∈ m := by
  intro m
  induction m with
  | nil => intro k v p hp; simp [dictInsert] at hp; simp [hp]
  | cons q rest ih =>
    intro k v p hp
    by_cases hk : q.1 = k
    · rw [show q = (q.1, q.2) from rfl, dictInsert, if_pos hk] at hp
      rcases List.mem_cons.mp hp with h | h
      · exact Or.inl h
      · exact Or.inr (by simp [h])
    · rw [show q = (q.1, q.2) from rfl, dictInsert, if_neg hk] at hp
      rcases List.mem_cons.mp hp with h | h
      · exact Or.inr (by simp [h])
      · rcases ih k v p h with h' | h'
        · exact Or.inl h'
        · exact Or.inr (by simp [h'])

lemma dictInsert_fresh :
    ∀ (m : LabelMap) (k v : String), k ∉ m.map Prod.fst → dictInsert m k v = m ++ [(k, v)] := by
  intro m
  induction m with
  | nil => intro k v _; rfl
  | cons q rest ih =>
    intro k v hk
    have h1 : q.1 ≠ k := fun h => hk (by simp [h.symm])
    have h2 : k ∉ rest.map Prod.fst := fun h => hk (by simp [h])
    rw [show q = (q.1, q.2) from rfl, dictInsert, if_neg h1, ih k v h2]
    simp

lemma load_foldl_fresh :
    ∀ (rows acc : LabelMap), (rows.map Prod.fst).Nodup →
      (∀ k ∈ rows.map Prod.fst, k ∉ acc.map Prod.fst) →
      rows.foldl (fun d p => dictInsert d p.1 p.2) acc = acc ++ rows := by
  intro rows
  induction rows with
  | nil => intro acc _ _; simp
  | cons q rest ih =>
    intro acc hnd hdisj
    have hq : q.1 ∉ acc.map Prod.fst := hdisj q.1 (by simp)
    have hnd0 : (q.1 :: rest.map Prod.fst).Nodup := by simpa using hnd
    have hqrest : q.1 ∉ rest.map Prod.fst := (List.nodup_cons.mp hnd0).1
    have hnd' : (rest.map Prod.fst).Nodup := (List.nodup_cons.mp hnd0).2
    have hdisj' : ∀ k ∈ rest.map Prod.fst, k ∉ (acc ++ [(q.1, q.2)]).map Prod.fst := by
      intro k hk hbad
      have hk' : k ∈ (q :: rest).map Prod.fst := by simp [hk]
      rw [List.map_append] at hbad
      rcases List.mem_append.mp hbad with hbad | hbad
      · exact hdisj k hk' hbad
      · have hkq : k = q.1 := by simpa using hbad
        exact hqrest (hkq ▸ hk)
    calc ((q :: rest).foldl (fun d p => dictInsert d p.1 p.2) acc)
        = rest.foldl (fun d p => dictInsert d p.1 p.2) (dictInsert acc q.1 q.2) := rfl
      _ = rest.foldl (fun d p => dictInsert d p.1 p.2) (acc ++ [(q.1, q.2)]) := by
          rw [dictInsert_fresh acc q.1 q.2 hq]
      _ = (acc ++ [(q.1, q.2)]) ++ rest := ih (acc ++ [(q.1, q.2)]) hnd' hdisj'
      _ = acc ++ (q :: rest) := by simp

lemma splitCommaList_no_comma :
    ∀ l : List Char, ',' ∉ l → splitCommaList l = [l] := by
  intro l
  induction l with
  | nil => intro _; rfl
  | cons c cs ih =>
    intro hc
    have h1 : c ≠ ',' := fun h => hc (by simp [h])
    have h2 : ',' ∉ cs := fun h => hc (by simp [h])
    simp [splitCommaList, h1, ih h2]

lemma splitCommaList_append :
    ∀ (l1 l2 : List Char), ',' ∉ l1 →
      splitCommaList (l1 ++ ',' :: l2) = l1 :: splitCommaList l2 := by
  intro l1
  induction l1 with
  | nil => intro l2 _; simp [splitCommaList]
  | cons c cs ih =>
    intro l2 hc
    have h1 : c ≠ ',' := fun h => hc (by simp [h])
    have h2 : ',' ∉ cs := fun h => hc (by simp [h])
    simp [splitCommaList, h1, ih l2 h2]

lemma string_mk_data (s : String) : String.mk s.data = s := rfl

lemma optList_valSub_int (ys xs : List Int) :
    optList (((ys.map Val.vint).zip (xs.map Val.vint)).map fun p => valSub p.1 p.2)
      = some ((ys.zip xs).map fun p => Val.vint (p.1 - p.2)) := by
  rw [List.zip_map, List.map_map]
  exact optList_map_some _ _ fun p _ => rfl

lemma combine_tables_spec {A B : DF} {cache m : String} {C : DF}
    (h : combine_tables A B cache m = some C) :
    ∃ ca cb ma mb ds fid d1 d2,
      A.getCol cache = some ca ∧ B.getCol cache = some cb ∧
      A.getCol m = some ma ∧ B.getCol m = some mb ∧
      optList ((mb.zip ma).map fun p => valSub p.1 p.2) = some ds ∧
      d1 = (concat_rename A B).setCol cache
        ((ca.zip cb).map fun p => Val.vstr (p.1.toStr ++ "," ++ p.2.toStr)) ∧
      d2 = d1.setCol (m ++ "_diff") ds ∧
      d2.getCol "frame_id_0" = some fid ∧
      C = d2.setCol "frame_id" fid := by
  simp only [combine_tables] at h
  cases hca : A.getCol cache with
  | none => rw [hca] at h; simp at h
  | some ca =>
  cases hcb : B.getCol cache with
  | none => rw [hca, hcb] at h; simp at h
  | some cb =>
  rw [hca, hcb] at h
  simp only [] at h
  cases hma : A.getCol m with
  | none => rw [hma] at h; simp at h
  | some ma =>
  cases hmb : B.getCol m with
  | none => rw [hma, hmb] at h; simp at h
  | some mb =>
  rw [hma, hmb] at h
  simp only [] at h
  cases hds : optList ((mb.zip ma).map fun p => valSub p.1 p.2) with
  | none => rw [hds] at h; simp at h
  | some ds =>
  rw [hds] at h
  simp only [] at h
  cases hfid : (((concat_rename A B).setCol cache
      ((ca.zip cb).map fun p => Val.vstr (p.1.toStr ++ "," ++ p.2.toStr))).setCol
        (m ++ "_diff") ds).getCol "frame_id_0" with
  | none => rw [hfid] at h; simp at h
  | some fid =>
  rw [hfid] at h
  simp only [Option.some.injEq] at h
  exact ⟨ca, cb, ma, mb, ds, fid, _, _, rfl, rfl, rfl, rfl, hds, rfl, rfl, hfid, h.symm⟩

/-! ### Claim theorems -/

/-- C1: for equal-length well-formed input tables A and B whose metric column
`m` is numeric in both, the table produced by `combine_tables` contains a
column named `m ++ "_diff"` whose value in every row is table B's metric
minus table A's metric, elementwise. -/
theorem c1_combine_metric_diff (A B : DF) (cache m : String) (C : DF)
    (xs ys : List Int)
    (hwfA : A.WF) (hwfB : B.WF) (hlen : A.rows.length = B.rows.length)
    (hC : combine_tables A B cache m = some C)
    (hma : A.getCol m = some (xs.map Val.vint))
    (hmb : B.getCol m = some (ys.map Val.vint)) :
    C.getCol (m ++ "_diff") = some ((ys.zip xs).map fun p => Val.vint (p.1 - p.2)) := by
  rcases combine_tables_spec hC with
    ⟨ca, cb, ma, mb, ds, fid, d1, d2, hca, hcb, hma', hmb', hds, hd1, hd2, hfid, hCeq⟩
  rw [hma] at hma'
  rw [hmb] at hmb'
  have hmaeq : ma = xs.map Val.vint := (Option.some.inj hma').symm
  have hmbeq : mb = ys.map Val.vint := (Option.some.inj hmb').symm
  subst hmaeq
  subst hmbeq
  rw [optList_valSub_int ys xs] at hds
  have hdseq : ds = (ys.zip xs).map fun p => Val.vint (p.1 - p.2) :=
    (Option.some.inj hds).symm
  subst hdseq
  have hlca : ca.length = A.rows.length := DF.getCol_length hca
  have hlcb : cb.length = B.rows.length := DF.getCol_length hcb
  have hlxs : xs.length = A.rows.length := by
    have := DF.getCol_length hma
    simpa using this
  have hlys : ys.length = B.rows.length := by
    have := DF.getCol_length hmb
    simpa using this
  have hbase_wf : (concat_rename A B).WF := concat_rename_WF hwfA hwfB
  have hbase_len : (concat_rename A B).rows.length = A.rows.length :=
    concat_rename_rows_length hlen
  have hcv_len : ((ca.zip cb).map fun p => Val.vstr (p.1.toStr ++ "," ++ p.2.toStr)).length
      = (concat_rename A B).rows.length := by
    simp [List.length_zip, hlca, hlcb, hbase_len, hlen, Nat.min_self]
  have hd1wf : d1.WF := by
    rw [hd1]
    exact DF.setCol_WF hbase_wf _ _
  have hd1len : d1.rows.length = A.rows.length := by
    rw [hd1, DF.setCol_rows_length hcv_len _, hbase_len]
  have hds_len : ((ys.zip xs).map fun p => Val.vint (p.1 - p.2)).length = d1.rows.length := by
    simp [List.length_zip, hlxs, hlys, hd1len, hlen, Nat.min_self]
  have hd2wf : d2.WF := by
    rw [hd2]
    exact DF.setCol_WF hd1wf _ _
  have hd2get : d2.getCol (m ++ "_diff")
      = some ((ys.zip xs).map fun p => Val.vint (p.1 - p.2)) := by
    rw [hd2]
    exact DF.getCol_setCol_self hd1wf hds_len (m ++ "_diff")
  have hfid_len : fid.length = d2.rows.length := DF.getCol_length hfid
  subst hCeq
  rw [DF.getCol_setCol_ne hd2wf hfid_len (diff_suffix_ne_frame_id m), hd2get]

/-- C1 witness: the two example tables combined at metric `mean_iou`; the
diff column holds `10 − 3` and `4 − 5`. -/
theorem c1_combine_metric_diff_witness :
    combine_tables exTableA exTableB "img_cache" "mean_iou" = some exCombined ∧
    exCombined.getCol ("mean_iou" ++ "_diff")
      = some ((([10, 4] : List Int).zip ([3, 5] : List Int)).map fun p =>
          Val.vint (p.1 - p.2)) :=
  ⟨by decide,
   c1_combine_metric_diff exTableA exTableB "img_cache" "mean_iou" exCombined
     [3, 5] [10, 4] (by decide) (by decide) (by decide) (by decide) (by decide)
     (by decide)⟩

lemma DF.setCol_cols_not_mem {df : DF} {c : String} (hc : c ∉ df.cols) (vals : List Val) :
    (df.setCol c vals).cols = df.cols ++ [c] := by
  simp [DF.setCol, setColNames, hc]

/-- C4: on equal-length well-formed tables (with the three derived column
names fresh, as they are for the standard `img_cache`/`<metric>_diff`/
`frame_id` names), `combine_tables` yields every column of A as `c_0`, every
column of B as `c_1`, plus exactly three unshared columns appended in order:
the comma-joined image-cache column, the metric-diff column, and a `frame_id`
column equal to the `frame_id_0` column, i.e. table A's frame ids. -/
theorem c4_combine_tables_shape (A B : DF) (cache m : String) (C : DF)
    (hwfA : A.WF) (hwfB : B.WF) (hlen : A.rows.length = B.rows.length)
    (hfidA : "frame_id" ∈ A.cols)
    (hc1 : cache ∉ (concat_rename A B).cols)
    (hc2 : m ++ "_diff" ∉ (concat_rename A B).cols)
    (hc3 : "frame_id" ∉ (concat_rename A B).cols)
    (hne1 : cache ≠ m ++ "_diff") (hne2 : cache ≠ "frame_id")
    (hC : combine_tables A B cache m = some C) :
    C.cols = A.cols.map (fun c => c ++ "_0") ++ B.cols.map (fun c => c ++ "_1")
      ++ [cache, m ++ "_diff", "frame_id"]
    ∧ (∀ c ∈ A.cols, C.getCol (c ++ "_0") = A.getCol c)
    ∧ (∀ c ∈ B.cols, C.getCol (c ++ "_1") = B.getCol c)
    ∧ C.getCol "frame_id" = A.getCol "frame_id"
    ∧ C.getCol "frame_id" = C.getCol "frame_id_0"
    ∧ (∀ ca cb, A.getCol cache = some ca → B.getCol cache = some cb →
        C.getCol cache = some ((ca.zip cb).map fun p =>
          Val.vstr (join_img_cache p.1.toStr p.2.toStr))) := by
  rcases combine_tables_spec hC with
    ⟨ca, cb, ma, mb, ds, fid, d1, d2, hca, hcb, hma, hmb, hds, hd1, hd2, hfid, hCeq⟩
  have hlca : ca.length = A.rows.length := DF.getCol_length hca
  have hlcb : cb.length = B.rows.length := DF.getCol_length hcb
  have hlma : ma.length = A.rows.length := DF.getCol_length hma
  have hlmb : mb.length = B.rows.length := DF.getCol_length hmb
  have hlds : ds.length = A.rows.length := by
    have h0 := optList_length hds
    simp only [List.length_map, List.length_zip, hlma, hlmb] at h0
    rw [h0, hlen, Nat.min_self]
  have hbase_wf : (concat_rename A B).WF := concat_rename_WF hwfA hwfB
  have hbase_len : (concat_rename A B).rows.length = A.rows.length :=
    concat_rename_rows_length hlen
  have hcv_len : ((ca.zip cb).map fun p => Val.vstr (p.1.toStr ++ "," ++ p.2.toStr)).length
      = (concat_rename A B).rows.length := by
    simp [List.length_zip, hlca, hlcb, hbase_len, hlen, Nat.min_self]
  have hd1wf : d1.WF := by
    rw [hd1]
    exact DF.setCol_WF hbase_wf _ _
  have hd1len : d1.rows.length = A.rows.length := by
    rw [hd1, DF.setCol_rows_length hcv_len _, hbase_len]
  have hds_len : ds.length = d1.rows.length := by
    rw [hd1len]
    exact hlds
  have hd2wf : d2.WF := by
    rw [hd2]
    exact DF.setCol_WF hd1wf _ _
  have hfid_len : fid.length = d2.rows.length := DF.getCol_length hfid
  have hd1cols : d1.cols = (concat_rename A B).cols ++ [cache] := by
    rw [hd1]
    exact DF.setCol_cols_not_mem hc1 _
  have hmd1 : m ++ "_diff" ∉ d1.cols := by
    rw [hd1cols]
    intro hmem
    rcases List.mem_append.mp hmem with hmem | hmem
    · exact hc2 hmem
    · have hx : m ++ "_diff" = cache := by simpa using hmem
      exact hne1 hx.symm
  have hd2cols : d2.cols = (concat_rename A B).cols ++ [cache] ++ [m ++ "_diff"] := by
    rw [hd2, DF.setCol_cols_not_mem hmd1 _, hd1cols]
  have hfd2 : "frame_id" ∉ d2.cols := by
    rw [hd2cols]
    intro hmem
    rcases List.mem_append.mp hmem with hmem | hmem
    · rcases List.mem_append.mp hmem with hmem | hmem
      · exact hc3 hmem
      · have hx : "frame_id" = cache := by simpa using hmem
        exact hne2 hx.symm
    · have hx : "frame_id" = m ++ "_diff" := by simpa using hmem
      exact diff_suffix_ne_frame_id m hx.symm
  have hpreserve : ∀ c', c' ∈ (concat_rename A B).cols →
      C.getCol c' = (concat_rename A B).getCol c' := by
    intro c' hc'
    have h1 : c' ≠ cache := fun h => hc1 (h ▸ hc')
    have h2 : c' ≠ m ++ "_diff" := fun h => hc2 (h ▸ hc')
    have h3 : c' ≠ "frame_id" := fun h => hc3 (h ▸ hc')
    rw [hCeq, DF.getCol_setCol_ne hd2wf hfid_len h3, hd2,
      DF.getCol_setCol_ne hd1wf hds_len h2, hd1,
      DF.getCol_setCol_ne hbase_wf hcv_len h1]
  have hfid0mem : "frame_id_0" ∈ (concat_rename A B).cols := by
    show "frame_id_0" ∈ A.cols.map (fun c => c ++ "_0") ++ B.cols.map fun c => c ++ "_1"
    exact List.mem_append.mpr (Or.inl (List.mem_map_of_mem _ hfidA))
  have hd2fid0 : d2.getCol "frame_id_0" = A.getCol "frame_id" := by
    have h1 : "frame_id_0" ≠ cache := fun h => hc1 (h ▸ hfid0mem)
    have h2 : "frame_id_0" ≠ m ++ "_diff" := fun h => hc2 (h ▸ hfid0mem)
    rw [hd2, DF.getCol_setCol_ne hd1wf hds_len h2, hd1,
      DF.getCol_setCol_ne hbase_wf hcv_len h1]
    exact getCol_concat_left hwfA hwfB hlen hfidA
  have hAfid : A.getCol "frame_id" = some fid := by
    rw [← hd2fid0]
    exact hfid
  have hfidcol : C.getCol "frame_id" = some fid := by
    rw [hCeq]
    exact DF.getCol_setCol_self hd2wf hfid_len "frame_id"
  refine ⟨?_, ?_, ?_, ?_, ?_, ?_⟩
  · rw [hCeq, DF.setCol_cols_not_mem hfd2 _, hd2cols]
    show (A.cols.map (fun c => c ++ "_0") ++ B.cols.map fun c => c ++ "_1")
        ++ [cache] ++ [m ++ "_diff"] ++ ["frame_id"] = _
    simp [List.append_assoc]
  · intro c hc
    have hmem : c ++ "_0" ∈ (concat_rename A B).cols := by
      show c ++ "_0" ∈ A.cols.map (fun c => c ++ "_0") ++ B.cols.map fun c => c ++ "_1"
      exact List.mem_append.mpr (Or.inl (List.mem_map_of_mem _ hc))
    rw [hpreserve _ hmem]
    exact getCol_concat_left hwfA hwfB hlen hc
  · intro c hc
    have hmem : c ++ "_1" ∈ (concat_rename A B).cols := by
      show c ++ "_1" ∈ A.cols.map (fun c => c ++ "_0") ++ B.cols.map fun c => c ++ "_1"
      exact List.mem_append.mpr (Or.inr (List.mem_map_of_mem _ hc))
    rw [hpreserve _ hmem]
    exact getCol_concat_right hwfA hwfB hlen hc
  · rw [hfidcol, hAfid]
  · have hCfid0 : C.getCol "frame_id_0" = some fid := by
      rw [hCeq, DF.getCol_setCol_ne hd2wf hfid_len (by decide)]
      exact hfid
    rw [hfidcol, hCfid0]
  · intro ca' cb' hca' hcb'
    rw [hca] at hca'
    rw [hcb] at hcb'
    have hcaeq : ca = ca' := Option.some.inj hca'
    have hcbeq : cb = cb' := Option.some.inj hcb'
    subst hcaeq
    subst hcbeq
    have h2 : cache ≠ m ++ "_diff" := hne1
    rw [hCeq, DF.getCol_setCol_ne hd2wf hfid_len hne2, hd2,
      DF.getCol_setCol_ne hd1wf hds_len h2, hd1,
      DF.getCol_setCol_self hbase_wf hcv_len cache]
    rfl

/-- C4 witness: the example tables combined; the shape facts instantiated at
concrete columns. -/
theorem c4_combine_tables_shape_witness :
    exCombined.cols = ["frame_id_0", "img_cache_0", "mean_iou_0", "frame_id_1",
      "img_cache_1", "mean_iou_1", "img_cache", "mean_iou_diff", "frame_id"] ∧
    exCombined.getCol ("mean_iou" ++ "_0") = exTableA.getCol "mean_iou" ∧
    exCombined.getCol ("mean_iou" ++ "_1") = exTableB.getCol "mean_iou" ∧
    exCombined.getCol "frame_id" = exTableA.getCol "frame_id" ∧
    exCombined.getCol "frame_id" = exCombined.getCol "frame_id_0" := by
  have h := c4_combine_tables_shape exTableA exTableB "img_cache" "mean_iou" exCombined
    (by decide) (by decide) (by decide) (by decide) (by decide) (by decide)
    (by decide) (by decide) (by decide) (by decide)
  refine ⟨?_, h.2.1 "mean_iou" (by decide), h.2.2.1 "mean_iou" (by decide),
    h.2.2.2.1, h.2.2.2.2.1⟩
  rw [h.1]
  decide

/-- C2: the frame key is the underscore-join of the session's model-version
list with the row's frame identifier string, and it is a pure function of
those two arguments: two states agreeing on `model_versions` give the same
key on the same row, regardless of all other session state.  The same holds
for the `table_labeler` variant of the function. -/
theorem c2_get_frame_uuid_pure (s1 s2 : SessionState) (cols : List String)
    (row : List Val) (v : Val)
    (hmv : s1.model_versions = s2.model_versions)
    (hfid : lookupCell cols row "frame_id" = some v) :
    DataManager.get_frame_uuid s1 cols row
      = some (String.intercalate "_" (s1.model_versions ++ [v.toStr]))
    ∧ DataManager.get_frame_uuid s1 cols row = DataManager.get_frame_uuid s2 cols row
    ∧ TableLabeler.get_frame_uuid s1 cols row
      = some (String.intercalate "_" (s1.model_versions ++ [v.toStr]))
    ∧ TableLabeler.get_frame_uuid s1 cols row = TableLabeler.get_frame_uuid s2 cols row := by
  have hTL : TableLabeler.get_frame_id cols row = some v.toStr := by
    simp [TableLabeler.get_frame_id, hfid]
  refine ⟨?_, ?_, ?_, ?_⟩
  · simp [DataManager.get_frame_uuid, hfid]
  · simp [DataManager.get_frame_uuid, hfid, hmv]
  · simp [TableLabeler.get_frame_uuid, hTL]
  · simp [TableLabeler.get_frame_uuid, hTL, hmv]

/-- C2 witness: on a concrete row, the key is `a_b_f1` and is unchanged when
unrelated session state (page, sort column) differs. -/
theorem c2_get_frame_uuid_pure_witness :
    DataManager.get_frame_uuid exState ["frame_id"] [Val.vstr "f1"] = some "a_b_f1" ∧
    DataManager.get_frame_uuid exState ["frame_id"] [Val.vstr "f1"]
      = DataManager.get_frame_uuid
          { exState with current_page := 99, sort_column := some "mean_iou" }
          ["frame_id"] [Val.vstr "f1"] := by
  have h := c2_get_frame_uuid_pure exState
    { exState with current_page := 99, sort_column := some "mean_iou" }
    ["frame_id"] [Val.vstr "f1"] (Val.vstr "f1") rfl (by decide)
  exact ⟨by rw [h.1]; decide, h.2.1⟩

/-- C7 counterexample: a path containing a comma breaks the round trip, so
the claim as stated (for every two paths) is false. -/
theorem c7_split_join_counterexample :
    split_on_comma (join_img_cache "a,b" "c") ≠ ["a,b", "c"] := by decide

/-- C7 amended: for per-model paths that contain no comma — as is the case
for the generated `<model_artifact_dir>/media/<frame_id>.png` cache paths —
splitting the comma-joined image-cache string recovers exactly the two
original paths in order. -/
theorem c7_split_join_amended (p0 p1 : String)
    (h0 : ',' ∉ p0.data) (h1 : ',' ∉ p1.data) :
    split_on_comma (join_img_cache p0 p1) = [p0, p1] := by
  have hcomma : ("," : String).data = [','] := rfl
  have hdata : (join_img_cache p0 p1).data = p0.data ++ ',' :: p1.data := by
    simp [join_img_cache, String.data_append, hcomma]
  rw [split_on_comma, hdata, splitCommaList_append p0.data p1.data h0,
    splitCommaList_no_comma p1.data h1]
  simp [string_mk_data]

/-- C7 witness: the round trip on two comma-free cache paths. -/
theorem c7_split_join_amended_witness :
    split_on_comma (join_img_cache "pa.png" "pb.png") = ["pa.png", "pb.png"] :=
  c7_split_join_amended "pa.png" "pb.png" (by decide) (by decide)

/-- C8: the SQL operations never touch the originally loaded table `df`
(success or failure), and `copy_original_to_current` restores the working
table to an exact copy of `df`. -/
theorem c8_sql_never_mutates_df (sqlExec : DF → String → Except String DF)
    (q : String) (s : SessionState) :
    (DataManager.apply_sql_query sqlExec q s).1.df = s.df
    ∧ (DataManager.add_computed_column sqlExec q s).1.df = s.df
    ∧ (∀ s', DataManager.copy_original_to_current s = some s' →
        s'.current_df = s.df ∧ s'.df = s.df) := by
  refine ⟨?_, ?_, ?_⟩
  · cases hdf : s.df with
    | none =>
      simp [DataManager.apply_sql_query, DataManager.copy_original_to_current, hdf]
    | some d =>
      cases hex : sqlExec d q with
      | ok r =>
        simp [DataManager.apply_sql_query, DataManager.copy_original_to_current, hdf, hex]
      | error e =>
        simp [DataManager.apply_sql_query, DataManager.copy_original_to_current, hdf, hex]
  · cases hcur : s.current_df with
    | none => simp [DataManager.add_computed_column, hcur]
    | some d =>
      cases hex : sqlExec d q with
      | ok r => simp [DataManager.add_computed_column, hcur, hex]
      | error e => simp [DataManager.add_computed_column, hcur, hex]
  · intro s' hcopy
    cases hdf : s.df with
    | none => simp [DataManager.copy_original_to_current, hdf] at hcopy
    | some d =>
      simp only [DataManager.copy_original_to_current, hdf, Option.some.injEq] at hcopy
      subst hcopy
      simp [hdf]

/-- C8 witness: with a failing SQL oracle on the in-use example state, `df`
is untouched by both operations, and the copy restores `current_df` to it. -/
theorem c8_sql_never_mutates_df_witness :
    (DataManager.apply_sql_query exFailingExec "SELECT x" exState).1.df = exState.df ∧
    (DataManager.add_computed_column exFailingExec "SELECT x" exState).1.df = exState.df ∧
    ({ exState with current_df := some exTableA, current_page := 1 } :
      SessionState).current_df = exState.df := by
  have h := c8_sql_never_mutates_df exFailingExec "SELECT x" exState
  exact ⟨h.1, h.2.1,
    (h.2.2 { exState with current_df := some exTableA, current_page := 1 } (by decide)).1⟩

/-- C3 counterexample: on a state whose working table differs from the
uploaded table, a failing `apply_sql_query` does NOT leave the working table
as it was — `copy_original_to_current` inside the `try` has already replaced
it with a copy of the uploaded table before the query runs. -/
theorem c3_counterexample :
    (DataManager.apply_sql_query exFailingExec "SELECT missing FROM current_df"
        exState).1.current_df ≠ exState.current_df := by decide

/-- C3 amended: on SQL failure `add_computed_column` leaves the whole session
(hence the working table) unchanged and reports an error; `apply_sql_query`
reports an error but leaves the working table equal to a fresh copy of the
originally loaded table with pagination reset — not the pre-call working
table. -/
theorem c3_sql_error_amended (sqlExec : DF → String → Except String DF)
    (q : String) (s : SessionState) (err : String) :
    (∀ d, s.current_df = some d → sqlExec d q = .error err →
      DataManager.add_computed_column sqlExec q s
        = (s, some ("Column Error: " ++ err)))
    ∧ (∀ d0, s.df = some d0 → sqlExec d0 q = .error err →
      DataManager.apply_sql_query sqlExec q s
        = ({ s with current_df := some d0, current_page := 1 },
           some ("SQL Error: " ++ err))) := by
  constructor
  · intro d hd hex
    simp [DataManager.add_computed_column, hd, hex]
  · intro d0 hd0 hex
    simp [DataManager.apply_sql_query, DataManager.copy_original_to_current, hd0, hex]

/-- C3 amended witness: concrete failing query on the in-use example state. -/
theorem c3_sql_error_amended_witness :
    DataManager.add_computed_column exFailingExec "q" exState
      = (exState, some ("Column Error: " ++ "Binder Error: column not found")) ∧
    DataManager.apply_sql_query exFailingExec "q" exState
      = ({ exState with current_df := some exTableA, current_page := 1 },
         some ("SQL Error: " ++ "Binder Error: column not found")) := by
  have h := c3_sql_error_amended exFailingExec "q" exState "Binder Error: column not found"
  exact ⟨h.1 { cols := ["frame_id"], rows := [[Val.vstr "f1"]] } (by decide) rfl,
    h.2 exTableA (by decide) rfl⟩

/-- C6: writing the label map as the two-column uuid/label CSV and reloading
it by zipping the two columns into a dict reproduces exactly the same
mapping (keys of a Python dict are unique). -/
theorem c6_label_roundtrip (m : LabelMap) (hnd : (m.map Prod.fst).Nodup) :
    DataManager.load_frame_labels (DataManager.save_frame_labels m).1
      (DataManager.save_frame_labels m).2 = m := by
  simp only [DataManager.save_frame_labels, DataManager.load_frame_labels]
  rw [List.zip_map' Prod.fst Prod.snd m]
  have hm : (m.map fun p => (p.1, p.2)) = m := by simp
  rw [hm]
  have h := load_foldl_fresh m [] hnd (by simp)
  simpa using h

/-- C6 witness: round trip of a concrete two-entry label map. -/
theorem c6_label_roundtrip_witness :
    DataManager.load_frame_labels
        (DataManager.save_frame_labels [("a_b_f1", "GT:FN"), ("a_b_f2", "Normal")]).1
        (DataManager.save_frame_labels [("a_b_f1", "GT:FN"), ("a_b_f2", "Normal")]).2
      = [("a_b_f1", "GT:FN"), ("a_b_f2", "Normal")] :=
  c6_label_roundtrip [("a_b_f1", "GT:FN"), ("a_b_f2", "Normal")] (by decide)

/-- C5 counterexample: with two model versions, the exporter's per-model key
`img_uuid_0` is `a_f1` while the loader/label-editor frame key is `a_b_f1`,
so the three derivations are not identical functions on diff tables. -/
theorem c5_frame_key_counterexample :
    DataManager.get_frame_uuid exState ["frame_id"] [Val.vstr "f1"] = some "a_b_f1" ∧
    DataManager.add_img_dst_paths ["a", "b"] "dst"
        { cols := ["frame_id"], rows := [[Val.vstr "f1"]] }
      = some { cols := ["frame_id", "img_uuid_0", "img_dst_0", "img_uuid_1", "img_dst_1"],
               rows := [[Val.vstr "f1", Val.vstr "a_f1", Val.vstr "dst/a_f1.png",
                         Val.vstr "b_f1", Val.vstr "dst/b_f1.png"]] } ∧
    ("a_f1" : String) ≠ "a_b_f1" := by decide

/-- C5 amended: the loader and the label-editor share
`DataManager.get_frame_uuid`, hence derive identical keys; for single-run
tables (exactly one model version, `frame_id` present) the exporter's
`img_uuid_0` coincides with that frame key; but on diff-table rows carrying
only `frame_id_0`, `DataManager.get_frame_uuid` raises where the
`table_labeler` variant falls back to `frame_id_0`, and with two model
versions the exporter's per-model keys differ from the joined frame key. -/
theorem c5_frame_key_amended :
    (∀ (s : SessionState) (cols : List String) (row : List Val),
      UIComponents.label_edit_uuid s cols row = DataManager.get_frame_uuid s cols row)
    ∧ (∀ (mv dst : String) (df df' : DF) (fids : List Val),
        df.WF → df.getCol "frame_id" = some fids →
        DataManager.add_img_dst_paths [mv] dst df = some df' →
        df'.getCol ("img_uuid_" ++ toString 0)
          = some (fids.map fun v => Val.vstr (mv ++ "_" ++ v.toStr)))
    ∧ (∀ mv fid : String, mv ++ "_" ++ fid = String.intercalate "_" ([mv] ++ [fid]))
    ∧ (∀ (s : SessionState) (cols : List String) (row : List Val) (v : Val),
        lookupCell cols row "frame_id" = none →
        lookupCell cols row "frame_id_0" = some v →
        DataManager.get_frame_uuid s cols row = none ∧
        TableLabeler.get_frame_uuid s cols row
          = some (String.intercalate "_" (s.model_versions ++ [v.toStr]))) := by
  refine ⟨fun s cols row => rfl, ?_, fun mv fid => rfl, ?_⟩
  · intro mv dst df df' fids hwf hfids h
    have hlf : fids.length = df.rows.length := DF.getCol_length hfids
    have hulen : (fids.map fun v => Val.vstr (mv ++ "_" ++ v.toStr)).length
        = df.rows.length := by
      simpa using hlf
    have hget1 : (df.setCol ("img_uuid_" ++ toString 0)
          (fids.map fun v => Val.vstr (mv ++ "_" ++ v.toStr))).getCol
            ("img_uuid_" ++ toString 0)
        = some (fids.map fun v => Val.vstr (mv ++ "_" ++ v.toStr)) :=
      DF.getCol_setCol_self hwf hulen _
    unfold DataManager.add_img_dst_paths DataManager.add_img_dst_paths_aux at h
    rw [hfids] at h
    simp only [] at h
    rw [hget1] at h
    simp only [] at h
    unfold DataManager.add_img_dst_paths_aux at h
    simp only [Option.some.injEq] at h
    subst h
    have hwf1 : (df.setCol ("img_uuid_" ++ toString 0)
        (fids.map fun v => Val.vstr (mv ++ "_" ++ v.toStr))).WF :=
      DF.setCol_WF hwf _ _
    have hlen1 : (df.setCol ("img_uuid_" ++ toString 0)
        (fids.map fun v => Val.vstr (mv ++ "_" ++ v.toStr))).rows.length
        = df.rows.length :=
      DF.setCol_rows_length hulen _
    have hlen2 : ((fids.map fun v => Val.vstr (mv ++ "_" ++ v.toStr)).map fun v =>
          Val.vstr (dst ++ "/" ++ v.toStr ++ ".png")).length
        = (df.setCol ("img_uuid_" ++ toString 0)
            (fids.map fun v => Val.vstr (mv ++ "_" ++ v.toStr))).rows.length := by
      rw [hlen1]
      simpa using hlf
    rw [DF.getCol_setCol_ne hwf1 hlen2 (by decide)]
    exact hget1
  · intro s cols row v hnone hsome
    constructor
    · simp [DataManager.get_frame_uuid, hnone]
    · simp [TableLabeler.get_frame_uuid, TableLabeler.get_frame_id, hnone, hsome]

/-- C5 amended witness: concrete instances of each conjunct. -/
theorem c5_frame_key_amended_witness :
    UIComponents.label_edit_uuid exState ["frame_id"] [Val.vstr "f1"]
      = DataManager.get_frame_uuid exState ["frame_id"] [Val.vstr "f1"] ∧
    (DataManager.add_img_dst_paths ["a"] "dst"
        { cols := ["frame_id"], rows := [[Val.vstr "f1"]] }
      = some { cols := ["frame_id", "img_uuid_0", "img_dst_0"],
               rows := [[Val.vstr "f1", Val.vstr "a_f1", Val.vstr "dst/a_f1.png"]] } →
      ({ cols := ["frame_id", "img_uuid_0", "img_dst_0"],
         rows := [[Val.vstr "f1", Val.vstr "a_f1", Val.vstr "dst/a_f1.png"]] } :
        DF).getCol ("img_uuid_" ++ toString 0)
        = some ([Val.vstr "f1"].map fun v => Val.vstr ("a" ++ "_" ++ v.toStr))) ∧
    DataManager.get_frame_uuid exState ["frame_id_0"] [Val.vstr "f9"] = none ∧
    TableLabeler.get_frame_uuid exState ["frame_id_0"] [Val.vstr "f9"]
      = some (String.intercalate "_" (exState.model_versions ++ [(Val.vstr "f9").toStr])) := by
  have h := c5_frame_key_amended
  refine ⟨h.1 exState ["frame_id"] [Val.vstr "f1"], ?_, ?_, ?_⟩
  · intro hres
    exact h.2.1 "a" "dst" _ _ [Val.vstr "f1"] (by decide) (by decide) hres
  · exact (h.2.2.2 exState ["frame_id_0"] [Val.vstr "f9"] (Val.vstr "f9")
      (by decide) (by decide)).1
  · exact (h.2.2.2 exState ["frame_id_0"] [Val.vstr "f9"] (Val.vstr "f9")
      (by decide) (by decide)).2

lemma mem_setColNames_self (cols : List String) (c : String) : c ∈ setColNames cols c := by
  by_cases hc : c ∈ cols
  · simp [setColNames, hc]
  · simp [setColNames, hc]

lemma setColNames_self_mem {cols : List String} {c : String} (hc : c ∈ cols) :
    setColNames cols c = cols := by
  simp [setColNames, hc]

lemma setCol_label_const {df : DF} (hwf : df.WF) (L : String) :
    ∀ x ∈ (df.setCol "label" (df.rows.map fun _ => Val.vstr L)).rows,
      lookupCell (df.setCol "label" (df.rows.map fun _ => Val.vstr L)).cols x "label"
        = some (Val.vstr L) := by
  intro x hx
  simp only [DF.setCol, List.mem_map] at hx
  rcases hx with ⟨p, hp, hset⟩
  have hp2 : p.2 = Val.vstr L := by
    have h2 := (List.of_mem_zip hp).2
    rcases List.mem_map.mp h2 with ⟨a, _, ha⟩
    exact ha.symm
  subst hset
  rw [hp2]
  exact lookupCell_setCells_self df.cols p.1 "label" (Val.vstr L)
    (hwf p.1 (List.of_mem_zip hp).1)

lemma foldl_dictInsert_values {P : String → Prop} :
    ∀ (rows : List (String × String)) (acc : LabelMap),
      (∀ p ∈ acc, P p.2) → (∀ p ∈ rows, P p.2) →
      ∀ p ∈ rows.foldl (fun d q => dictInsert d q.1 q.2) acc, P p.2 := by
  intro rows
  induction rows with
  | nil => intro acc hacc _ p hp; exact hacc p hp
  | cons q rest ih =>
    intro acc hacc hrows p hp
    refine ih (dictInsert acc q.1 q.2) ?_ (fun r hr => hrows r (by simp [hr])) p hp
    intro r hr
    rcases dictInsert_subset acc q.1 q.2 r hr with h | h
    · rw [h]
      exact hrows q (by simp)
    · exact hacc r h

lemma init_frame_labels_spec {s s' : SessionState} {df : DF}
    (hdf : s.df = some df) (hwf : df.WF)
    (hinit : DataManager.init_frame_labels s = some s') :
    ∃ df', s' = { s with df := some df' }
      ∧ df'.cols = setColNames df.cols "label"
      ∧ df'.rows.length = df.rows.length
      ∧ ∀ r ∈ df'.rows, ∃ fid,
          lookupCell df'.cols r "frame_id" = some fid
          ∧ lookupCell df'.cols r "label" = some (Val.vstr
              (match dictGet s.frame_labels
                (String.intercalate "_" (s.model_versions ++ [fid.toStr])) with
               | some l => l
               | none => FRAME_LABELS.headI)) := by
  have hwf1 : (df.setCol "label" (df.rows.map fun _ => Val.vstr FRAME_LABELS.headI)).WF :=
    DF.setCol_WF hwf _ _
  have hlab1 : "label" ∈ (df.setCol "label"
      (df.rows.map fun _ => Val.vstr FRAME_LABELS.headI)).cols :=
    mem_setColNames_self df.cols "label"
  unfold DataManager.init_frame_labels at hinit
  rw [hdf] at hinit
  simp only [] at hinit
  cases hopt : optList ((df.setCol "label"
      (df.rows.map fun _ => Val.vstr FRAME_LABELS.headI)).rows.map fun r =>
      match DataManager.get_frame_uuid s
        (df.setCol "label" (df.rows.map fun _ => Val.vstr FRAME_LABELS.headI)).cols r with
      | none => none
      | some uuid =>
        match dictGet s.frame_labels uuid with
        | some l => some (setCells
            (df.setCol "label" (df.rows.map fun _ => Val.vstr FRAME_LABELS.headI)).cols
            r "label" (Val.vstr l))
        | none => some r) with
  | none =>
    rw [hopt] at hinit
    simp at hinit
  | some rows2 =>
    rw [hopt] at hinit
    simp only [Option.some.injEq] at hinit
    refine ⟨{ cols := (df.setCol "label"
        (df.rows.map fun _ => Val.vstr FRAME_LABELS.headI)).cols, rows := rows2 },
      hinit.symm, rfl, ?_, ?_⟩
    · have hl := optList_length hopt
      simp only [List.length_map] at hl
      rw [hl, DF.setCol_rows_length (by simp) "label"]
    · intro r hr
      rcases optList_mem _ hopt r hr with ⟨x, hx, hfx⟩
      cases hguid : DataManager.get_frame_uuid s
          (df.setCol "label" (df.rows.map fun _ => Val.vstr FRAME_LABELS.headI)).cols x with
      | none =>
        rw [hguid] at hfx
        simp at hfx
      | some uuid =>
        rw [hguid] at hfx
        simp only [] at hfx
        rcases Option.map_eq_some'.mp hguid with ⟨v, hv, huuid⟩
        have hxlen : x.length = (df.setCol "label"
            (df.rows.map fun _ => Val.vstr FRAME_LABELS.headI)).cols.length := hwf1 x hx
        cases hg : dictGet s.frame_labels uuid with
        | some l =>
          rw [hg] at hfx
          simp only [Option.some.injEq] at hfx
          refine ⟨v, ?_, ?_⟩
          · rw [← hfx]
            have hne : ("frame_id" : String) ≠ "label" := by decide
            have h1 := lookupCell_setCells_ne
              (df.setCol "label" (df.rows.map fun _ => Val.vstr FRAME_LABELS.headI)).cols
              x "label" "frame_id" (Val.vstr l) hne hxlen
            rw [setColNames_self_mem hlab1] at h1
            rw [h1]
            exact hv
          · rw [← hfx]
            have h1 := lookupCell_setCells_mem
              (df.setCol "label" (df.rows.map fun _ => Val.vstr FRAME_LABELS.headI)).cols
              x "label" (Val.vstr l) hlab1 hxlen
            rw [h1, huuid, hg]
        | none =>
          rw [hg] at hfx
          simp only [Option.some.injEq] at hfx
          refine ⟨v, ?_, ?_⟩
          · rw [← hfx]
            exact hv
          · rw [← hfx]
            have h1 := setCol_label_const hwf FRAME_LABELS.headI x hx
            rw [h1, huuid, hg]

/-- C9: the label taxonomy has exactly 13 entries and every operation that
writes the persistent label map preserves the invariant that each stored
label is one of them: the map starts empty, a selector edit inserts a value
drawn from `FRAME_LABELS`, the CSV save/reload round trip introduces no new
values, and the initial per-row assignment writes only `FRAME_LABELS` values
into the table. -/
theorem c9_label_invariant :
    FRAME_LABELS.length = 13
    ∧ LabelMapOK init_session_state.frame_labels
    ∧ (∀ (m : LabelMap) (uuid cur newl : String), newl ∈ FRAME_LABELS →
        LabelMapOK m →
        LabelMapOK (UIComponents.handle_label_edit_labels m uuid cur newl))
    ∧ (∀ m : LabelMap, LabelMapOK m →
        LabelMapOK (DataManager.load_frame_labels
          (DataManager.save_frame_labels m).1 (DataManager.save_frame_labels m).2))
    ∧ (∀ (s s' : SessionState) (df : DF), s.df = some df → df.WF →
        LabelMapOK s.frame_labels →
        DataManager.init_frame_labels s = some s' →
        ∀ df', s'.df = some df' → ∀ r ∈ df'.rows, ∃ l ∈ FRAME_LABELS,
          lookupCell df'.cols r "label" = some (Val.vstr l)) := by
  refine ⟨by decide, by intro p hp; simp [init_session_state] at hp, ?_, ?_, ?_⟩
  · intro m uuid cur newl hnew hm
    unfold UIComponents.handle_label_edit_labels
    by_cases hne : newl ≠ cur
    · rw [if_pos hne]
      intro p hp
      rcases dictInsert_subset m uuid newl p hp with h | h
      · rw [h]
        exact hnew
      · exact hm p h
    · rw [if_neg hne]
      exact hm
  · intro m hm p hp
    unfold DataManager.load_frame_labels DataManager.save_frame_labels at hp
    rw [List.zip_map' Prod.fst Prod.snd m] at hp
    have hm' : (m.map fun q => (q.1, q.2)) = m := by simp
    rw [hm'] at hp
    exact foldl_dictInsert_values m [] (by simp) hm p hp
  · intro s s' df hdf hwf hm hinit df' hdf' r hr
    rcases init_frame_labels_spec hdf hwf hinit with ⟨df'', hs', hcols, hlen, hrows⟩
    have hdfeq : df'' = df' := by
      rw [hs'] at hdf'
      simpa using hdf'
    subst hdfeq
    rcases hrows r hr with ⟨fid, hfid, hlabel⟩
    cases hg : dictGet s.frame_labels
        (String.intercalate "_" (s.model_versions ++ [fid.toStr])) with
    | some l =>
      rw [hg] at hlabel
      exact ⟨l, hm _ (dictGet_mem _ _ _ hg), hlabel⟩
    | none =>
      rw [hg] at hlabel
      exact ⟨FRAME_LABELS.headI, by decide, hlabel⟩

/-- C9 witness: the taxonomy size, and a selector edit on the empty map
inserting a fixed label keeps the invariant. -/
theorem c9_label_invariant_witness :
    FRAME_LABELS.length = 13 ∧
    LabelMapOK (UIComponents.handle_label_edit_labels [] "a_b_f1" "Pred:Bias" "GT:FN") := by
  have h := c9_label_invariant
  exact ⟨h.1, h.2.2.1 [] "a_b_f1" "Pred:Bias" "GT:FN" (by decide) (by decide)⟩

/-- C10: after an upload, `init_frame_labels` gives every row a label: the
historical label of its frame key when the key is in the loaded map,
otherwise the default `FRAME_LABELS[0] = "Pred:Bias"`. -/
theorem c10_default_labels (s s' : SessionState) (df : DF)
    (hdf : s.df = some df) (hwf : df.WF)
    (hinit : DataManager.init_frame_labels s = some s') :
    FRAME_LABELS.headI = "Pred:Bias"
    ∧ ∃ df', s'.df = some df' ∧ df'.rows.length = df.rows.length
      ∧ ∀ r ∈ df'.rows, ∃ fid,
          lookupCell df'.cols r "frame_id" = some fid
          ∧ lookupCell df'.cols r "label" = some (Val.vstr
              (match dictGet s.frame_labels
                (String.intercalate "_" (s.model_versions ++ [fid.toStr])) with
               | some l => l
               | none => "Pred:Bias")) := by
  rcases init_frame_labels_spec hdf hwf hinit with ⟨df'', hs', hcols, hlen, hrows⟩
  refine ⟨rfl, df'', by rw [hs'], hlen, hrows⟩

/-- C10 witness: a two-row upload with one historical label: the matched row
gets `GT:FN`, the unmatched row gets the default `Pred:Bias`. -/
theorem c10_default_labels_witness :
    FRAME_LABELS.headI = "Pred:Bias" ∧
    DataManager.init_frame_labels
        { exState with
          df := some { cols := ["frame_id"],
                       rows := [[Val.vstr "f1"], [Val.vstr "f2"]] } }
      = some
        { exState with
          df := some { cols := ["frame_id", "label"],
                       rows := [[Val.vstr "f1", Val.vstr "GT:FN"],
                                [Val.vstr "f2", Val.vstr "Pred:Bias"]] } } := by
  refine ⟨?_, by decide⟩
  exact (c10_default_labels
    { exState with
      df := some { cols := ["frame_id"],
                   rows := [[Val.vstr "f1"], [Val.vstr "f2"]] } }
    { exState with
      df := some { cols := ["frame_id", "label"],
                   rows := [[Val.vstr "f1", Val.vstr "GT:FN"],
                            [Val.vstr "f2", Val.vstr "Pred:Bias"]] } }
    { cols := ["frame_id"], rows := [[Val.vstr "f1"], [Val.vstr "f2"]] }
    (by decide) (by decide) (by decide)).1
